import Mathlib

/-!
# Shallow embedding of `rust-simple-stack-processor` (src/src/lib.rs)

The Rust crate implements a stack-based virtual machine: a `StackMachineState`
holding four stacks, a growable cell memory, an opcode sequence, a program
counter and a gas counter, plus a dispatch loop `StackMachine::execute` and a
chain-of-responsibility trap mechanism.

Conventions of the embedding:
* Rust `i64` values are modelled as `Int`; where the source performs checked
  arithmetic the embedding checks membership in `[-2^63, 2^63)`, and where the
  source performs plain (release-mode wrapping) arithmetic the embedding wraps
  with `wrap64`.
* Rust `usize` (64-bit) is modelled as `Nat`; `usize::try_from(i64)` succeeds
  exactly on non-negative values, `i64::try_from(usize)` exactly below `2^63`.
* Stacks are Lean lists with the head as the top of the stack (`Vec::push` /
  `Vec::pop` act on the end of the Rust vector).
* The non-terminating dispatch loop is given a fuel parameter; running out of
  fuel is reported by a dedicated `RunResult.outOfFuel` constructor, distinct
  from every behaviour of the source program.
-/

namespace StackProcessor

/-- Two's-complement bounds of `i64`. -/
def i64Min : Int := -(2 ^ 63)

def i64Max : Int := 2 ^ 63 - 1

/-- `x` fits in `i64`. -/
def i64InRange (x : Int) : Prop := i64Min ≤ x ∧ x ≤ i64Max

instance (x : Int) : Decidable (i64InRange x) := by
  unfold i64InRange; infer_instance

/-- Two's-complement wrap-around into the `i64` range, the behaviour of
release-mode Rust `+` on `i64`. -/
def wrap64 (x : Int) : Int := (x + 2 ^ 63) % 2 ^ 64 - 2 ^ 63

/-- `i64::checked_add`. -/
def checked_add (a b : Int) : Option Int :=
  if i64InRange (a + b) then some (a + b) else none

/-- `i64::checked_sub`. -/
def checked_sub (a b : Int) : Option Int :=
  if i64InRange (a - b) then some (a - b) else none

/-- `i64::checked_mul`. -/
def checked_mul (a b : Int) : Option Int :=
  if i64InRange (a * b) then some (a * b) else none

/-- `i64::checked_div`: `None` on a zero divisor and on the sole overflowing
division `i64::MIN / -1`; otherwise the quotient truncated toward zero
(`Int.tdiv` is Rust's truncating division). -/
def checked_div (dividend divisor : Int) : Option Int :=
  if divisor = 0 ∨ (dividend = i64Min ∧ divisor = -1) then none
  else some (Int.tdiv dividend divisor)

/-- `GasLimit` from the source. -/
inductive GasLimit where
  | Unlimited : GasLimit
  | Limited : Nat → GasLimit
  deriving Repr, DecidableEq

/-- `Opcode` from the source. -/
inductive Opcode where
  | JMP | JR | JRZ | JRNZ | CALL | CMPZ | CMPNZ
  | LDI : Int → Opcode
  | DROP | SWAP | SWAP2 | RET | ADD | SUB | MUL | DIV | NOT | DUP | DUP2
  | TRAP | NOP | PUSHLP | INCLP | ADDLP | GETLP | GETLP2 | DROPLP | CMPLOOP
  | OVER2 | GtR | RGt | RAt | GtR2 | RGt2 | RAt2 | AND
  | NEWCELLS | MOVETOCELLS | MOVEFROMCELLS
  deriving Repr, DecidableEq

/-- `StackMachineError` from the source.  `TryFromIntError` forgets the
payload of the wrapped `std::num::TryFromIntError` (a unit-like struct). -/
inductive StackMachineError where
  | DivisionByZero : Opcode → StackMachineError
  | NumericOverflow : Opcode → StackMachineError
  | TryFromIntError : StackMachineError
  | NumberStackUnderflow : StackMachineError
  | LoopStackUnderflow : StackMachineError
  | ScratchStackUnderflow : StackMachineError
  | InvalidCellOperation : StackMachineError
  | UnhandledTrap : Int → StackMachineError
  | RanOutOfGas : Nat → GasLimit → StackMachineError
  | UnknownError : StackMachineError
  deriving Repr, DecidableEq

/-- `TrapHandled` from the source. -/
inductive TrapHandled where
  | Handled
  | NotHandled
  deriving Repr, DecidableEq

/-- `StackMachineState` from the source.  List heads are stack tops. -/
structure StackMachineState where
  number_stack : List Int
  scratch_stack : List Int
  return_stack : List Nat
  loop_stack : List (Int × Int)
  cells : List Int
  opcodes : List Opcode
  pc : Nat
  gas_used : Nat
  deriving Repr, DecidableEq

/-- A trap handler: `HandleTrap::handle_trap` takes the trap id and `&mut`
state and returns a result; the mutated state is returned alongside so that
mutations persist even when the handler returns an error. -/
def Handler : Type :=
  Int → StackMachineState → Except StackMachineError TrapHandled × StackMachineState

/-- `TrapHandler::handle_trap`: run the closure if the id matches the
registered id, otherwise report `NotHandled` without touching the state. -/
def TrapHandler.handle_trap
    (handled_trap : Int)
    (to_run : Int → StackMachineState →
      Except StackMachineError TrapHandled × StackMachineState) : Handler :=
  fun trap_number st =>
    if trap_number = handled_trap then to_run handled_trap st
    else (Except.ok TrapHandled.NotHandled, st)

/-- `usize::try_from` on an `i64` value (64-bit target): fails exactly on
negative input. -/
def usizeFromI64 (v : Int) : Except StackMachineError Nat :=
  if 0 ≤ v then Except.ok v.toNat else Except.error StackMachineError.TryFromIntError

/-- `i64::try_from` on a `usize` value (64-bit target): fails exactly when the
value exceeds `i64::MAX`. -/
def i64FromUsize (n : Nat) : Except StackMachineError Int :=
  if (n : Int) ≤ i64Max then Except.ok (n : Int)
  else Except.error StackMachineError.TryFromIntError

/-- Outcome of executing one instruction's semantics. `continue_` carries the
`pc_reset` flag of the source; `finished` is a `return Ok(())` from inside the
match (RET on an empty return stack, handled TRAP); `failed` is an early
`return Err(e)` / `?`-propagation, carrying the partially mutated state. -/
inductive InstrResult where
  | continue_ : StackMachineState → Bool → InstrResult
  | finished : StackMachineState → InstrResult
  | failed : StackMachineError → StackMachineState → InstrResult
  deriving Repr, DecidableEq

/-- The state carried by an `InstrResult`. -/
def InstrResult.state : InstrResult → StackMachineState
  | .continue_ st _ => st
  | .finished st => st
  | .failed _ st => st

/-- `StackMachine::execute_binary_op`: pop `second` (top), pop `first`, apply
`op first second`; `None` becomes `NumericOverflow` naming the opcode. -/
def execute_binary_op (op : Int → Int → Option Int) (opcode : Opcode)
    (st : StackMachineState) : InstrResult :=
  match st.number_stack with
  | second :: first :: rest =>
    match op first second with
    | some result => .continue_ { st with number_stack := result :: rest } false
    | none => .failed (.NumericOverflow opcode) { st with number_stack := rest }
  | [_] => .failed .NumberStackUnderflow { st with number_stack := [] }
  | [] => .failed .NumberStackUnderflow st

/-- `StackMachine::execute_division`: pop `divisor` (top), pop `dividend`,
`checked_div`; `None` becomes `DivisionByZero` naming the opcode. -/
def execute_division (opcode : Opcode) (st : StackMachineState) : InstrResult :=
  match st.number_stack with
  | divisor :: dividend :: rest =>
    match checked_div dividend divisor with
    | some result => .continue_ { st with number_stack := result :: rest } false
    | none => .failed (.DivisionByZero opcode) { st with number_stack := rest }
  | [_] => .failed .NumberStackUnderflow { st with number_stack := [] }
  | [] => .failed .NumberStackUnderflow st

/-- The pc computation of `StackMachine::execute_jump_relative` once the jump
is taken: `usize::try_from(i64::try_from(pc)? + offset)?`.  The `i64` addition
is modelled with release-mode wrap-around (`wrap64`). -/
def jump_relative_pc (pc : Nat) (offset : Int) : Except StackMachineError Nat :=
  match i64FromUsize pc with
  | Except.error e => Except.error e
  | Except.ok pcI => usizeFromI64 (wrap64 (pcI + offset))

/-- `StackMachine::execute_jump_relative`: pop the offset; for the conditional
variants additionally pop the condition value and test `(value == 0) == cond`;
on a taken jump set the pc through `jump_relative_pc`.  Returns the `pc_reset`
flag alongside the mutated state, mirroring `Result<bool, _>` plus `&mut self`. -/
def jump_apply (offset : Int) (st : StackMachineState) :
    Except StackMachineError Bool × StackMachineState :=
  match jump_relative_pc st.pc offset with
  | Except.ok new_pc => (Except.ok true, { st with pc := new_pc })
  | Except.error e => (Except.error e, st)

def execute_jump_relative (condition : Option Bool) (st : StackMachineState) :
    Except StackMachineError Bool × StackMachineState :=
  match st.number_stack with
  | [] => (Except.error .NumberStackUnderflow, st)
  | offset :: rest =>
    match condition with
    | none => jump_apply offset { st with number_stack := rest }
    | some cond =>
      match rest with
      | [] => (Except.error .NumberStackUnderflow, { st with number_stack := [] })
      | value :: rest2 =>
        let st2 := { st with number_stack := rest2 }
        if (decide (value = 0)) = cond then jump_apply offset st2
        else (Except.ok false, st2)

/-- The loop of the `Opcode::TRAP` arm: offer the popped id to the handlers in
registration order; `Handled` ends the run with `Ok(())`, a handler error is
propagated, and an exhausted chain is `UnhandledTrap`. -/
def trap_dispatch : List Handler → Int → StackMachineState → InstrResult
  | [], trap_id, st => .failed (.UnhandledTrap trap_id) st
  | h :: rest, trap_id, st =>
    match h trap_id st with
    | (Except.error e, st') => .failed e st'
    | (Except.ok TrapHandled.Handled, st') => .finished st'
    | (Except.ok TrapHandled.NotHandled, st') => trap_dispatch rest trap_id st'

/-- The write-back loop of `Opcode::MOVETOCELLS`: for `i` in
`address..address + num_cells`, pop one value into `cells[i]`.  Returns the
error (if any) with the stack and cells as mutated so far. -/
def move_to_cells_loop :
    Nat → Nat → List Int → List Int → Option StackMachineError × List Int × List Int
  | _, 0, stack, cells => (none, stack, cells)
  | i, n + 1, stack, cells =>
    match stack with
    | [] => (some .NumberStackUnderflow, [], cells)
    | v :: rest => move_to_cells_loop (i + 1) n rest (cells.set i v)

/-- The push loop of `Opcode::MOVEFROMCELLS`: for `i` in
`(address..address + num_cells).rev()`, push `cells[i]`.  Indexing is total
(`getD 0`) but the caller's bounds check keeps every access in bounds. -/
def move_from_cells_loop (cells : List Int) (address : Nat) :
    Nat → List Int → List Int
  | 0, stack => stack
  | n + 1, stack => move_from_cells_loop cells address n (cells.getD (address + n) 0 :: stack)

/-- Bitwise AND of two `i64` values via their two's-complement bit patterns
(`Opcode::AND`'s `x & y`). -/
def land64 (x y : Int) : Int :=
  let toPat : Int → Nat := fun v => (v % 2 ^ 64).toNat
  let pat := (toPat x) &&& (toPat y)
  if (pat : Int) ≤ i64Max then (pat : Int) else (pat : Int) - 2 ^ 64

/-- One iteration's instruction semantics: the body of the `match opcode`
inside `StackMachine::execute`, given the fetched opcode. -/
def executeStep (handlers : List Handler) (st : StackMachineState)
    (opcode : Opcode) : InstrResult :=
  match opcode with
  | .JMP =>
    match st.number_stack with
    | [] => .failed .NumberStackUnderflow st
    | v :: rest =>
      match usizeFromI64 v with
      | Except.ok target => .continue_ { st with number_stack := rest, pc := target } true
      | Except.error e => .failed e { st with number_stack := rest }
  | .JR =>
    match execute_jump_relative none st with
    | (Except.ok b, st') => .continue_ st' b
    | (Except.error e, st') => .failed e st'
  | .JRZ =>
    match execute_jump_relative (some true) st with
    | (Except.ok b, st') => .continue_ st' b
    | (Except.error e, st') => .failed e st'
  | .JRNZ =>
    match execute_jump_relative (some false) st with
    | (Except.ok b, st') => .continue_ st' b
    | (Except.error e, st') => .failed e st'
  | .CALL =>
    -- the source pushes the return address before popping the target
    let st1 := { st with return_stack := (st.pc + 1) :: st.return_stack }
    match st1.number_stack with
    | [] => .failed .NumberStackUnderflow st1
    | v :: rest =>
      match usizeFromI64 v with
      | Except.ok target => .continue_ { st1 with number_stack := rest, pc := target } true
      | Except.error e => .failed e { st1 with number_stack := rest }
  | .CMPZ =>
    match st.number_stack with
    | [] => .failed .NumberStackUnderflow st
    | v :: rest =>
      .continue_ { st with number_stack := (if v = 0 then -1 else 0) :: rest } false
  | .CMPNZ =>
    match st.number_stack with
    | [] => .failed .NumberStackUnderflow st
    | v :: rest =>
      .continue_ { st with number_stack := (if v = 0 then 0 else -1) :: rest } false
  | .LDI immediate_value =>
    .continue_ { st with number_stack := immediate_value :: st.number_stack } false
  | .DROP =>
    match st.number_stack with
    | [] => .failed .NumberStackUnderflow st
    | _ :: rest => .continue_ { st with number_stack := rest } false
  | .RET =>
    match st.return_stack with
    | return_address :: rest =>
      .continue_ { st with return_stack := rest, pc := return_address } true
    | [] => .finished st
  | .GtR =>
    match st.number_stack with
    | [] => .failed .NumberStackUnderflow st
    | v :: rest =>
      .continue_ { st with number_stack := rest, scratch_stack := v :: st.scratch_stack } false
  | .RGt =>
    match st.scratch_stack with
    | [] => .failed .ScratchStackUnderflow st
    | v :: rest =>
      .continue_ { st with scratch_stack := rest, number_stack := v :: st.number_stack } false
  | .RAt =>
    match st.scratch_stack with
    | [] => .failed .ScratchStackUnderflow st
    | v :: _ =>
      .continue_ { st with number_stack := v :: st.number_stack } false
  | .GtR2 =>
    match st.number_stack with
    | x :: y :: rest =>
      .continue_ { st with number_stack := rest,
                           scratch_stack := x :: y :: st.scratch_stack } false
    | [_] => .failed .NumberStackUnderflow { st with number_stack := [] }
    | [] => .failed .NumberStackUnderflow st
  | .RGt2 =>
    match st.scratch_stack with
    | x :: y :: rest =>
      .continue_ { st with scratch_stack := rest,
                           number_stack := x :: y :: st.number_stack } false
    | [_] => .failed .ScratchStackUnderflow { st with scratch_stack := [] }
    | [] => .failed .ScratchStackUnderflow st
  | .RAt2 =>
    match st.scratch_stack with
    | x :: y :: rest =>
      .continue_ { st with scratch_stack := x :: y :: rest,
                           number_stack := x :: y :: st.number_stack } false
    | [_] => .failed .ScratchStackUnderflow { st with scratch_stack := [] }
    | [] => .failed .ScratchStackUnderflow st
  | .ADD => execute_binary_op (fun a b => checked_add a b) .ADD st
  | .SUB => execute_binary_op (fun a b => checked_sub b a) .SUB st
  | .MUL => execute_binary_op (fun a b => checked_mul a b) .MUL st
  | .DIV => execute_division .DIV st
  | .NOT =>
    match st.number_stack with
    | [] => .failed .NumberStackUnderflow st
    | x :: rest =>
      .continue_ { st with number_stack := (if x = 0 then 1 else 0) :: rest } false
  | .DUP =>
    match st.number_stack with
    | [] => .failed .NumberStackUnderflow st
    | x :: rest =>
      .continue_ { st with number_stack := x :: x :: rest } false
  | .DUP2 =>
    match st.number_stack with
    | x :: y :: rest =>
      .continue_ { st with number_stack := x :: y :: x :: y :: rest } false
    | [_] => .failed .NumberStackUnderflow { st with number_stack := [] }
    | [] => .failed .NumberStackUnderflow st
  | .OVER2 =>
    match st.number_stack with
    | x4 :: x3 :: x2 :: x1 :: rest =>
      .continue_ { st with number_stack := x2 :: x1 :: x4 :: x3 :: x2 :: x1 :: rest } false
    | _ => .failed .NumberStackUnderflow { st with number_stack := [] }
  | .SWAP =>
    match st.number_stack with
    | x :: y :: rest =>
      .continue_ { st with number_stack := y :: x :: rest } false
    | [_] => .failed .NumberStackUnderflow { st with number_stack := [] }
    | [] => .failed .NumberStackUnderflow st
  | .SWAP2 =>
    match st.number_stack with
    | x4 :: x3 :: x2 :: x1 :: rest =>
      .continue_ { st with number_stack := x2 :: x1 :: x4 :: x3 :: rest } false
    | _ => .failed .NumberStackUnderflow { st with number_stack := [] }
  | .TRAP =>
    match st.number_stack with
    | [] => .failed .NumberStackUnderflow st
    | trap_id :: rest =>
      trap_dispatch handlers trap_id { st with number_stack := rest }
  | .NOP => .continue_ st false
  | .PUSHLP =>
    match st.number_stack with
    | current_index :: max_index :: rest =>
      .continue_ { st with number_stack := rest,
                           loop_stack := (current_index, max_index) :: st.loop_stack } false
    | [_] => .failed .NumberStackUnderflow { st with number_stack := [] }
    | [] => .failed .NumberStackUnderflow st
  | .INCLP =>
    -- `*current_index += 1` is unchecked i64 arithmetic: release-mode wrap
    match st.loop_stack with
    | (current_index, m) :: rest =>
      .continue_ { st with loop_stack := (wrap64 (current_index + 1), m) :: rest } false
    | [] => .failed .LoopStackUnderflow st
  | .ADDLP =>
    match st.number_stack with
    | [] => .failed .NumberStackUnderflow st
    | increment :: nrest =>
      match st.loop_stack with
      | (current_index, m) :: rest =>
        .continue_ { st with number_stack := nrest,
                             loop_stack := (wrap64 (current_index + increment), m) :: rest } false
      | [] => .failed .LoopStackUnderflow { st with number_stack := nrest }
  | .GETLP =>
    match st.loop_stack with
    | (current_index, _) :: _ =>
      .continue_ { st with number_stack := current_index :: st.number_stack } false
    | [] => .failed .LoopStackUnderflow st
  | .GETLP2 =>
    match st.loop_stack with
    | _ :: (current_index, _) :: _ =>
      .continue_ { st with number_stack := current_index :: st.number_stack } false
    | _ => .failed .LoopStackUnderflow st
  | .DROPLP =>
    match st.loop_stack with
    | _ :: rest => .continue_ { st with loop_stack := rest } false
    | [] => .failed .LoopStackUnderflow st
  | .CMPLOOP =>
    match st.loop_stack with
    | (current_index, max_index) :: _ =>
      .continue_ { st with
        number_stack := (if max_index ≤ current_index then 1 else 0) :: st.number_stack } false
    | [] => .failed .LoopStackUnderflow st
  | .AND =>
    match st.number_stack with
    | x :: y :: rest =>
      .continue_ { st with number_stack := land64 x y :: rest } false
    | [_] => .failed .NumberStackUnderflow { st with number_stack := [] }
    | [] => .failed .NumberStackUnderflow st
  | .NEWCELLS =>
    match st.number_stack with
    | [] => .failed .NumberStackUnderflow st
    | v :: rest =>
      match usizeFromI64 v with
      | Except.error _ => .failed .InvalidCellOperation { st with number_stack := rest }
      | Except.ok num_cells =>
        .continue_ { st with number_stack := rest,
                             cells := st.cells ++ List.replicate num_cells 0 } false
  | .MOVETOCELLS =>
    match st.number_stack with
    | [] => .failed .NumberStackUnderflow st
    | v1 :: rest1 =>
      match usizeFromI64 v1 with
      | Except.error _ => .failed .InvalidCellOperation { st with number_stack := rest1 }
      | Except.ok num_cells =>
        match rest1 with
        | [] => .failed .NumberStackUnderflow { st with number_stack := [] }
        | v2 :: rest2 =>
          match usizeFromI64 v2 with
          | Except.error _ => .failed .InvalidCellOperation { st with number_stack := rest2 }
          | Except.ok address =>
            if num_cells < 1 ∨ st.cells.length < address + num_cells then
              .failed .InvalidCellOperation { st with number_stack := rest2 }
            else
              match move_to_cells_loop address num_cells rest2 st.cells with
              | (some e, stack', cells') =>
                .failed e { st with number_stack := stack', cells := cells' }
              | (none, stack', cells') =>
                .continue_ { st with number_stack := stack', cells := cells' } false
  | .MOVEFROMCELLS =>
    match st.number_stack with
    | [] => .failed .NumberStackUnderflow st
    | v1 :: rest1 =>
      match usizeFromI64 v1 with
      | Except.error _ => .failed .InvalidCellOperation { st with number_stack := rest1 }
      | Except.ok num_cells =>
        match rest1 with
        | [] => .failed .NumberStackUnderflow { st with number_stack := [] }
        | v2 :: rest2 =>
          match usizeFromI64 v2 with
          | Except.error _ => .failed .InvalidCellOperation { st with number_stack := rest2 }
          | Except.ok address =>
            if num_cells < 1 ∨ st.cells.length < address + num_cells then
              .failed .InvalidCellOperation { st with number_stack := rest2 }
            else
              .continue_ { st with
                number_stack := move_from_cells_loop st.cells address num_cells rest2 } false

/-- Outcome of a (fuel-bounded) run of the dispatch loop.  `ok`/`err` mirror
`Result<(), StackMachineError>` and carry the machine state the run leaves
behind (`self.st` in Rust persists after `execute` returns); `outOfFuel` only
signals that the fuel bound was too small to decide the run. -/
inductive RunResult where
  | ok : StackMachineState → RunResult
  | err : StackMachineError → StackMachineState → RunResult
  | outOfFuel : StackMachineState → RunResult
  deriving Repr, DecidableEq

/-- The state carried by a `RunResult`. -/
def RunResult.state : RunResult → StackMachineState
  | .ok st => st
  | .err _ st => st
  | .outOfFuel st => st

/-- The end-of-iteration bookkeeping of the dispatch loop: pc auto-increment
(suppressed when the instruction reset the pc) followed by the one-unit gas
charge. -/
def advance (st : StackMachineState) (pc_reset : Bool) : StackMachineState :=
  let st2 := if pc_reset then st else { st with pc := st.pc + 1 }
  { st2 with gas_used := st2.gas_used + 1 }

/-- The `loop` of `StackMachine::execute`: fetch the opcode at the pc
(`UnknownError` when out of bounds), run its semantics, then — only when the
semantics neither returned nor failed — apply the pc auto-increment (unless the
instruction reset the pc), charge one unit of gas, and check a limited gas
budget before looping. -/
def execute_loop (handlers : List Handler) (gas_limit : GasLimit) :
    Nat → StackMachineState → RunResult
  | 0, st => .outOfFuel st
  | fuel + 1, st =>
    match st.opcodes.get? st.pc with
    | none => .err .UnknownError st
    | some opcode =>
      match executeStep handlers st opcode with
      | .finished st' => .ok st'
      | .failed e st' => .err e st'
      | .continue_ st' pc_reset =>
        match gas_limit with
        | .Unlimited => execute_loop handlers gas_limit fuel (advance st' pc_reset)
        | .Limited limit =>
          if limit < (advance st' pc_reset).gas_used then
            .err (.RanOutOfGas (advance st' pc_reset).gas_used gas_limit) (advance st' pc_reset)
          else
            execute_loop handlers gas_limit fuel (advance st' pc_reset)

/-- The state `StackMachine::execute` starts its loop from: gas counter reset
to 0, pc set to `starting_point`, every other field untouched. -/
def resetFor (st : StackMachineState) (starting_point : Nat) : StackMachineState :=
  { st with gas_used := 0, pc := starting_point }

/-- `StackMachine::execute`: reset gas and pc, then run the dispatch loop. -/
def execute (handlers : List Handler) (fuel : Nat) (st : StackMachineState)
    (starting_point : Nat) (gas_limit : GasLimit) : RunResult :=
  execute_loop handlers gas_limit fuel (resetFor st starting_point)

/-- An empty machine state (`StackMachineState::default`). -/
def initState : StackMachineState :=
  { number_stack := [], scratch_stack := [], return_stack := [], loop_stack := []
    cells := [], opcodes := [], pc := 0, gas_used := 0 }

/-- Thread a trap id through a prefix of the handler chain under the
assumption that every handler consulted reports `NotHandled`: the resulting
threaded state, or `none` as soon as some handler errs or handles. -/
def threadNotHandled : List Handler → Int → StackMachineState → Option StackMachineState
  | [], _, st => some st
  | h :: rest, trap_id, st =>
    match h trap_id st with
    | (Except.ok TrapHandled.NotHandled, st') => threadNotHandled rest trap_id st'
    | _ => none

/-- The relative-jump pc computation as the spec's words describe it: the sum
`pc + offset` taken in an intermediate wide enough that the addition itself
cannot overflow (exact integer arithmetic), then range-checked back to the
64-bit address type, failure surfacing as a conversion error.  Stated for
comparison against `jump_relative_pc`, which embeds the source. -/
def jump_relative_pc_spec (pc : Nat) (offset : Int) : Except StackMachineError Nat :=
  if 0 ≤ (pc : Int) + offset ∧ (pc : Int) + offset < 2 ^ 64 then
    Except.ok ((pc : Int) + offset).toNat
  else Except.error StackMachineError.TryFromIntError

/-! ## Helper lemmas -/

theorem wrap64_eq_self {x : Int} (h1 : i64Min ≤ x) (h2 : x ≤ i64Max) : wrap64 x = x := by
  unfold wrap64
  unfold i64Min at h1
  unfold i64Max at h2
  omega

theorem wrap64_eq_sub {x : Int} (h1 : i64Max < x) (h2 : x < 3 * 2 ^ 63) :
    wrap64 x = x - 2 ^ 64 := by
  unfold wrap64
  unfold i64Max at h1
  omega

theorem execute_binary_op_gas (op : Int → Int → Option Int) (opcode : Opcode)
    (st : StackMachineState) :
    ((execute_binary_op op opcode st).state).gas_used = st.gas_used := by
  unfold execute_binary_op
  repeat' split
  all_goals simp [InstrResult.state]

theorem execute_division_gas (opcode : Opcode) (st : StackMachineState) :
    ((execute_division opcode st).state).gas_used = st.gas_used := by
  unfold execute_division
  repeat' split
  all_goals simp [InstrResult.state]

theorem jump_apply_gas (offset : Int) (st : StackMachineState)
    (r : Except StackMachineError Bool) (st' : StackMachineState)
    (h : jump_apply offset st = (r, st')) : st'.gas_used = st.gas_used := by
  unfold jump_apply at h
  split at h
  all_goals (injection h with h1 h2; subst h2; rfl)

theorem execute_jump_relative_gas (condition : Option Bool) (st : StackMachineState)
    (r : Except StackMachineError Bool) (st' : StackMachineState)
    (h : execute_jump_relative condition st = (r, st')) : st'.gas_used = st.gas_used := by
  unfold execute_jump_relative at h
  repeat' split at h
  all_goals first
    | exact (jump_apply_gas _ _ _ _ h).trans rfl
    | (injection h with h1 h2; subst h2; rfl)

theorem trap_dispatch_nil_gas (trap_id : Int) (st : StackMachineState) :
    ((trap_dispatch [] trap_id st).state).gas_used = st.gas_used := rfl

/-- No instruction's own semantics touch the gas counter (for `TRAP` this
needs an empty handler chain, since handlers get mutable access to the whole
state). -/
theorem executeStep_gas (handlers : List Handler) (st : StackMachineState) (op : Opcode)
    (h : op = Opcode.TRAP → handlers = []) :
    ((executeStep handlers st op).state).gas_used = st.gas_used := by
  cases op
  case TRAP =>
    rw [h rfl]
    simp only [executeStep]
    repeat' split
    all_goals simp [InstrResult.state, trap_dispatch]
  case ADD => exact execute_binary_op_gas _ _ _
  case SUB => exact execute_binary_op_gas _ _ _
  case MUL => exact execute_binary_op_gas _ _ _
  case DIV => exact execute_division_gas _ _
  case JR =>
    simp only [executeStep]
    split
    case _ b st' heq => simpa [InstrResult.state] using execute_jump_relative_gas _ _ _ _ heq
    case _ e st' heq => simpa [InstrResult.state] using execute_jump_relative_gas _ _ _ _ heq
  case JRZ =>
    simp only [executeStep]
    split
    case _ b st' heq => simpa [InstrResult.state] using execute_jump_relative_gas _ _ _ _ heq
    case _ e st' heq => simpa [InstrResult.state] using execute_jump_relative_gas _ _ _ _ heq
  case JRNZ =>
    simp only [executeStep]
    split
    case _ b st' heq => simpa [InstrResult.state] using execute_jump_relative_gas _ _ _ _ heq
    case _ e st' heq => simpa [InstrResult.state] using execute_jump_relative_gas _ _ _ _ heq
  all_goals
    simp only [executeStep]
    repeat' split
    all_goals simp [InstrResult.state]

theorem advance_gas (st : StackMachineState) (pc_reset : Bool) :
    (advance st pc_reset).gas_used = st.gas_used + 1 := by
  cases pc_reset <;> rfl

theorem execute_loop_none (handlers : List Handler) (gl : GasLimit) (fuel : Nat)
    (st : StackMachineState) (hfetch : st.opcodes.get? st.pc = none) :
    execute_loop handlers gl (fuel + 1) st = .err .UnknownError st := by
  simp only [execute_loop, hfetch]

theorem execute_loop_finished (handlers : List Handler) (gl : GasLimit) (fuel : Nat)
    (st : StackMachineState) (op : Opcode) (st' : StackMachineState)
    (hfetch : st.opcodes.get? st.pc = some op)
    (hstep : executeStep handlers st op = .finished st') :
    execute_loop handlers gl (fuel + 1) st = .ok st' := by
  simp only [execute_loop, hfetch, hstep]

theorem execute_loop_failed (handlers : List Handler) (gl : GasLimit) (fuel : Nat)
    (st : StackMachineState) (op : Opcode) (e : StackMachineError) (st' : StackMachineState)
    (hfetch : st.opcodes.get? st.pc = some op)
    (hstep : executeStep handlers st op = .failed e st') :
    execute_loop handlers gl (fuel + 1) st = .err e st' := by
  simp only [execute_loop, hfetch, hstep]

theorem execute_loop_continue_unlimited (handlers : List Handler) (fuel : Nat)
    (st : StackMachineState) (op : Opcode) (st' : StackMachineState) (pc_reset : Bool)
    (hfetch : st.opcodes.get? st.pc = some op)
    (hstep : executeStep handlers st op = .continue_ st' pc_reset) :
    execute_loop handlers .Unlimited (fuel + 1) st =
      execute_loop handlers .Unlimited fuel (advance st' pc_reset) := by
  simp only [execute_loop, hfetch, hstep]

theorem execute_loop_continue_limited (handlers : List Handler) (limit fuel : Nat)
    (st : StackMachineState) (op : Opcode) (st' : StackMachineState) (pc_reset : Bool)
    (hfetch : st.opcodes.get? st.pc = some op)
    (hstep : executeStep handlers st op = .continue_ st' pc_reset) :
    execute_loop handlers (.Limited limit) (fuel + 1) st =
      (if limit < (advance st' pc_reset).gas_used then
        .err (.RanOutOfGas (advance st' pc_reset).gas_used (.Limited limit))
          (advance st' pc_reset)
      else
        execute_loop handlers (.Limited limit) fuel (advance st' pc_reset)) := by
  simp only [execute_loop, hfetch, hstep]

/-- Along a successful run with an empty handler chain the gas counter only
grows. -/
theorem execute_loop_gas_mono (gl : GasLimit) :
    ∀ (fuel : Nat) (st st' : StackMachineState),
      execute_loop [] gl fuel st = .ok st' → st.gas_used ≤ st'.gas_used := by
  intro fuel
  induction fuel with
  | zero => intro st st' h; cases h
  | succ fuel ih =>
    intro st st' h
    cases hfetch : st.opcodes.get? st.pc with
    | none => rw [execute_loop_none [] gl fuel st hfetch] at h; cases h
    | some op =>
      have hgas := executeStep_gas [] st op (fun _ => rfl)
      cases hstep : executeStep [] st op with
      | finished st1 =>
        rw [execute_loop_finished [] gl fuel st op st1 hfetch hstep] at h
        injection h with h1
        subst h1
        rw [hstep] at hgas
        exact le_of_eq hgas.symm
      | failed e st1 =>
        rw [execute_loop_failed [] gl fuel st op e st1 hfetch hstep] at h
        cases h
      | continue_ st1 pc_reset =>
        rw [hstep] at hgas
        have hadv : (advance st1 pc_reset).gas_used = st.gas_used + 1 := by
          rw [advance_gas]
          exact congrArg (· + 1) hgas
        cases gl with
        | Unlimited =>
          rw [execute_loop_continue_unlimited [] fuel st op st1 pc_reset hfetch hstep] at h
          have := ih (advance st1 pc_reset) st' h
          omega
        | Limited limit =>
          rw [execute_loop_continue_limited [] limit fuel st op st1 pc_reset hfetch hstep] at h
          by_cases hlim : limit < (advance st1 pc_reset).gas_used
          · rw [if_pos hlim] at h; cases h
          · rw [if_neg hlim] at h
            have := ih (advance st1 pc_reset) st' h
            omega

/-- A successful run under `Unlimited` determines the runs under every
`Limited` budget (empty handler chain): a budget at least the final gas gives
the same successful run, and a smaller budget fails with `RanOutOfGas` at one
past the budget. -/
theorem execute_loop_limited_of_unlimited :
    ∀ (fuel : Nat) (st st' : StackMachineState),
      execute_loop [] .Unlimited fuel st = .ok st' →
      (∀ l : Nat, st'.gas_used ≤ l → execute_loop [] (.Limited l) fuel st = .ok st') ∧
      (∀ l : Nat, st.gas_used ≤ l → l < st'.gas_used →
        ∃ stM, execute_loop [] (.Limited l) fuel st =
            .err (.RanOutOfGas (l + 1) (.Limited l)) stM ∧ stM.gas_used = l + 1) := by
  intro fuel
  induction fuel with
  | zero => intro st st' h; cases h
  | succ fuel ih =>
    intro st st' h
    cases hfetch : st.opcodes.get? st.pc with
    | none => rw [execute_loop_none [] .Unlimited fuel st hfetch] at h; cases h
    | some op =>
      have hgas := executeStep_gas [] st op (fun _ => rfl)
      cases hstep : executeStep [] st op with
      | finished st1 =>
        rw [execute_loop_finished [] .Unlimited fuel st op st1 hfetch hstep] at h
        injection h with h1
        subst h1
        rw [hstep] at hgas
        simp only [InstrResult.state] at hgas
        constructor
        · intro l _
          exact execute_loop_finished [] (.Limited l) fuel st op st1 hfetch hstep
        · intro l hl1 hl2
          exact absurd hl2 (by omega)
      | failed e st1 =>
        rw [execute_loop_failed [] .Unlimited fuel st op e st1 hfetch hstep] at h
        cases h
      | continue_ st1 pc_reset =>
        rw [execute_loop_continue_unlimited [] fuel st op st1 pc_reset hfetch hstep] at h
        rw [hstep] at hgas
        simp only [InstrResult.state] at hgas
        have hadv : (advance st1 pc_reset).gas_used = st.gas_used + 1 := by
          rw [advance_gas]; omega
        have hmono := execute_loop_gas_mono .Unlimited fuel (advance st1 pc_reset) st' h
        obtain ⟨ihA, ihB⟩ := ih (advance st1 pc_reset) st' h
        constructor
        · intro l hl
          rw [execute_loop_continue_limited [] l fuel st op st1 pc_reset hfetch hstep]
          rw [if_neg (by omega)]
          exact ihA l hl
        · intro l hl1 hl2
          rw [execute_loop_continue_limited [] l fuel st op st1 pc_reset hfetch hstep]
          by_cases hc : l < (advance st1 pc_reset).gas_used
          · have hval : (advance st1 pc_reset).gas_used = l + 1 := by omega
            refine ⟨advance st1 pc_reset, ?_, hval⟩
            rw [if_pos hc, hval]
          · rw [if_neg hc]
            exact ihB l (by omega) hl2

/-! ## Claim theorems -/

/-- C9: every call to `execute(start_pc, gas_policy)` sets the gas counter to
0 and the pc to `start_pc` before dispatching any instruction, and modifies no
other field at that point: the operand, scratch, return and loop stacks, the
cell memory and the instruction sequence enter the dispatch loop exactly as
the previous run and the caller left them. -/
theorem C9_execute_resets_only_gas_and_pc (handlers : List Handler) (fuel : Nat)
    (st : StackMachineState) (start : Nat) (gl : GasLimit) :
    execute handlers fuel st start gl = execute_loop handlers gl fuel (resetFor st start) ∧
    (resetFor st start).gas_used = 0 ∧
    (resetFor st start).pc = start ∧
    (resetFor st start).number_stack = st.number_stack ∧
    (resetFor st start).scratch_stack = st.scratch_stack ∧
    (resetFor st start).return_stack = st.return_stack ∧
    (resetFor st start).loop_stack = st.loop_stack ∧
    (resetFor st start).cells = st.cells ∧
    (resetFor st start).opcodes = st.opcodes :=
  ⟨rfl, rfl, rfl, rfl, rfl, rfl, rfl, rfl, rfl⟩

/-- C10: executing `RAt2` (peek-scratch-pair) when the scratch stack holds
exactly one value makes `execute`'s loop return the scratch-stack-underflow
error, and the scratch stack is left empty: the nominal peek removes its
single value on this error path. -/
theorem C10_rat2_single_value_underflow (handlers : List Handler) (gl : GasLimit)
    (fuel : Nat) (st : StackMachineState) (v : Int)
    (hfetch : st.opcodes.get? st.pc = some Opcode.RAt2)
    (hscr : st.scratch_stack = [v]) :
    execute_loop handlers gl (fuel + 1) st =
      .err .ScratchStackUnderflow { st with scratch_stack := [] } ∧
    ({ st with scratch_stack := [] } : StackMachineState).scratch_stack = [] := by
  refine ⟨?_, rfl⟩
  refine execute_loop_failed handlers gl fuel st Opcode.RAt2 _ _ hfetch ?_
  simp only [executeStep, hscr]

/-- C10 witness at scratch stack `[7]` and program `[RAt2]`. -/
theorem C10_witness :
    execute_loop [] GasLimit.Unlimited 1
      { initState with opcodes := [Opcode.RAt2], scratch_stack := [7] } =
      RunResult.err StackMachineError.ScratchStackUnderflow
        { initState with opcodes := [Opcode.RAt2], scratch_stack := [] } ∧
    ({ initState with
        opcodes := [Opcode.RAt2], scratch_stack := [] } : StackMachineState).scratch_stack = [] :=
  C10_rat2_single_value_underflow [] GasLimit.Unlimited 0
    { initState with opcodes := [Opcode.RAt2], scratch_stack := [7] } 7 rfl rfl

/-- C1 counterexample: in the program `[LDI 1, LDI 0, DIV]` run from pc 0 with
unlimited gas, `DIV` fails with division-by-zero while `gas_used` stays at 2:
the failing instruction is never charged, so `gas_used` does not include a
unit for the failing `Div` (the claim demands 3). -/
theorem C1_counterexample :
    execute [] 4 { initState with opcodes := [Opcode.LDI 1, Opcode.LDI 0, Opcode.DIV] }
        0 GasLimit.Unlimited =
      RunResult.err (StackMachineError.DivisionByZero Opcode.DIV)
        { initState with
          opcodes := [Opcode.LDI 1, Opcode.LDI 0, Opcode.DIV], pc := 2, gas_used := 2 } ∧
    (execute [] 4 { initState with opcodes := [Opcode.LDI 1, Opcode.LDI 0, Opcode.DIV] }
        0 GasLimit.Unlimited).state.gas_used = 2 ∧
    ¬ (execute [] 4 { initState with opcodes := [Opcode.LDI 1, Opcode.LDI 0, Opcode.DIV] }
        0 GasLimit.Unlimited).state.gas_used = 3 := by
  refine ⟨?_, ?_, ?_⟩ <;> decide

/-- C1 amended: the dispatch loop charges one unit of gas exactly when an
instruction's semantics complete normally (charged after the semantics, before
the next fetch); instructions whose semantics fail and instructions that
terminate the run return from `execute` without the loop charging them, and an
instruction's own semantics never change the gas counter (for `TRAP` this is
stated for an empty handler chain, since handlers may mutate all state). -/
theorem C1_gas_charged_only_on_normal_completion
    (handlers : List Handler) (gl : GasLimit) (fuel : Nat)
    (st : StackMachineState) (op : Opcode)
    (hfetch : st.opcodes.get? st.pc = some op) :
    (op ≠ Opcode.TRAP → ((executeStep handlers st op).state).gas_used = st.gas_used) ∧
    (∀ e st', executeStep handlers st op = .failed e st' →
      execute_loop handlers gl (fuel + 1) st = .err e st') ∧
    (∀ st', executeStep handlers st op = .finished st' →
      execute_loop handlers gl (fuel + 1) st = .ok st') ∧
    (∀ st' pc_reset, executeStep handlers st op = .continue_ st' pc_reset →
      (advance st' pc_reset).gas_used = st'.gas_used + 1 ∧
      execute_loop handlers gl (fuel + 1) st =
        (match gl with
         | .Unlimited => execute_loop handlers gl fuel (advance st' pc_reset)
         | .Limited limit =>
           if limit < (advance st' pc_reset).gas_used then
             .err (.RanOutOfGas (advance st' pc_reset).gas_used gl) (advance st' pc_reset)
           else execute_loop handlers gl fuel (advance st' pc_reset))) := by
  refine ⟨fun hne => executeStep_gas handlers st op (fun h => absurd h hne),
    fun e st' hstep => execute_loop_failed handlers gl fuel st op e st' hfetch hstep,
    fun st' hstep => execute_loop_finished handlers gl fuel st op st' hfetch hstep,
    fun st' pc_reset hstep => ⟨advance_gas st' pc_reset, ?_⟩⟩
  cases gl with
  | Unlimited => exact execute_loop_continue_unlimited handlers fuel st op st' pc_reset hfetch hstep
  | Limited limit => exact execute_loop_continue_limited handlers limit fuel st op st' pc_reset hfetch hstep

/-- C1 witness: a failing `DIV` propagates its error without a gas charge, and
its semantics leave the gas counter untouched. -/
theorem C1_witness :
    ((executeStep [] { initState with opcodes := [Opcode.DIV], number_stack := [0, 1] }
        Opcode.DIV).state).gas_used =
      ({ initState with
          opcodes := [Opcode.DIV], number_stack := [0, 1] } : StackMachineState).gas_used ∧
    execute_loop [] GasLimit.Unlimited 1
      { initState with opcodes := [Opcode.DIV], number_stack := [0, 1] } =
      RunResult.err (StackMachineError.DivisionByZero Opcode.DIV)
        { initState with opcodes := [Opcode.DIV], number_stack := [] } := by
  have h := C1_gas_charged_only_on_normal_completion [] GasLimit.Unlimited 0
    { initState with opcodes := [Opcode.DIV], number_stack := [0, 1] } Opcode.DIV rfl
  exact ⟨h.1 (by decide),
    h.2.1 (StackMachineError.DivisionByZero Opcode.DIV)
      { initState with opcodes := [Opcode.DIV], number_stack := [] } (by decide)⟩

/-- C2 counterexample: the 3-instruction straight-line program
`[LDI 5, DROP, RET]` run under `Limited(2)` (that is, `Limited(N-1)`) returns
`Ok` with `gas_used = 2`, not the gas-exhaustion error with `gas_used = 3`
demanded by the claim — the terminal `RET` is never charged. -/
theorem C2_counterexample :
    execute [] 10 { initState with opcodes := [Opcode.LDI 5, Opcode.DROP, Opcode.RET] }
        0 (GasLimit.Limited 2) =
      RunResult.ok
        { initState with
          opcodes := [Opcode.LDI 5, Opcode.DROP, Opcode.RET], pc := 2, gas_used := 2 } ∧
    (execute [] 10 { initState with opcodes := [Opcode.LDI 5, Opcode.DROP, Opcode.RET] }
        0 (GasLimit.Limited 2)).state.gas_used = 2 ∧
    ¬ (execute [] 10 { initState with opcodes := [Opcode.LDI 5, Opcode.DROP, Opcode.RET] }
        0 (GasLimit.Limited 2)).state.gas_used = 3 := by
  refine ⟨?_, ?_, ?_⟩ <;> decide

/-- C2 amended: a straight-line program that runs N instructions and ends with
`Return` on an empty return stack (so an unlimited run ends `Ok` with
`gas_used = N - 1`, the terminal `Return` being uncharged) behaves as follows:
under `Limited(N)` and even under `Limited(N-1)` it returns `Ok`, and the
gas-exhaustion error first appears under `Limited(N-2)`, reporting
`gas_used = N - 1`. -/
theorem C2_straight_line_gas (fuel N start : Nat) (st st' : StackMachineState)
    (hN : 2 ≤ N)
    (hrun : execute [] fuel st start .Unlimited = .ok st')
    (hgas : st'.gas_used = N - 1) :
    execute [] fuel st start (.Limited N) = .ok st' ∧
    execute [] fuel st start (.Limited (N - 1)) = .ok st' ∧
    ∃ stM, execute [] fuel st start (.Limited (N - 2)) =
        .err (.RanOutOfGas (N - 1) (.Limited (N - 2))) stM ∧ stM.gas_used = N - 1 := by
  unfold execute at hrun ⊢
  obtain ⟨hA, hB⟩ := execute_loop_limited_of_unlimited fuel (resetFor st start) st' hrun
  have h0 : (resetFor st start).gas_used = 0 := rfl
  refine ⟨hA N (by omega), hA (N - 1) (by omega), ?_⟩
  obtain ⟨stM, h1, h2⟩ := hB (N - 2) (by omega) (by omega)
  rw [show N - 2 + 1 = N - 1 from by omega] at h1 h2
  exact ⟨stM, h1, h2⟩

/-- C2 witness: the program `[LDI 5, DROP, RET]` (N = 3) succeeds under
`Limited(3)` and `Limited(2)` and exhausts gas under `Limited(1)` with
`gas_used = 2`. -/
theorem C2_witness :
    execute [] 10 { initState with opcodes := [Opcode.LDI 5, Opcode.DROP, Opcode.RET] }
        0 (GasLimit.Limited 3) =
      RunResult.ok
        { initState with
          opcodes := [Opcode.LDI 5, Opcode.DROP, Opcode.RET], pc := 2, gas_used := 2 } ∧
    execute [] 10 { initState with opcodes := [Opcode.LDI 5, Opcode.DROP, Opcode.RET] }
        0 (GasLimit.Limited 2) =
      RunResult.ok
        { initState with
          opcodes := [Opcode.LDI 5, Opcode.DROP, Opcode.RET], pc := 2, gas_used := 2 } ∧
    ∃ stM, execute [] 10 { initState with opcodes := [Opcode.LDI 5, Opcode.DROP, Opcode.RET] }
        0 (GasLimit.Limited 1) =
        RunResult.err (StackMachineError.RanOutOfGas 2 (GasLimit.Limited 1)) stM ∧
      stM.gas_used = 2 :=
  C2_straight_line_gas 10 3 0
    { initState with opcodes := [Opcode.LDI 5, Opcode.DROP, Opcode.RET] }
    { initState with
      opcodes := [Opcode.LDI 5, Opcode.DROP, Opcode.RET], pc := 2, gas_used := 2 }
    (by omega) (by decide) (by decide)

/-- C3 counterexample: `INCLP` on a loop counter at `i64::MAX` completes
without any error — `execute` returns `Ok` — and the wrapped value
`i64::MIN` is stored in the loop frame, although `i64::MAX + 1` does not fit
the 64-bit signed range; the loop-counter increment is plain (wrapping)
arithmetic, not checked. -/
theorem C3_counterexample :
    execute [] 10
        { initState with loop_stack := [(i64Max, 0)], opcodes := [Opcode.INCLP, Opcode.RET] }
        0 GasLimit.Unlimited =
      RunResult.ok
        { initState with
          loop_stack := [(i64Min, 0)], opcodes := [Opcode.INCLP, Opcode.RET],
          pc := 1, gas_used := 1 } ∧
    ¬ i64InRange (i64Max + 1) ∧
    wrap64 (i64Max + 1) = i64Min := by
  refine ⟨?_, ?_, ?_⟩ <;> decide

/-- C3 amended: `Add`, `Sub` and `Mul` on the operand stack are checked — a
result outside the 64-bit signed range makes `execute` return the
numeric-overflow error naming the instruction, with no wrapped value pushed —
but the loop-counter increments `INCLP` and `ADDLP` are unchecked: they store
the two's-complement-wrapped counter and execution continues without error. -/
theorem C3_arith_checked_but_loop_counters_wrap :
    (∀ (handlers : List Handler) (gl : GasLimit) (fuel : Nat) (st : StackMachineState)
        (a b : Int) (rest : List Int),
      st.opcodes.get? st.pc = some Opcode.ADD → st.number_stack = b :: a :: rest →
      ¬ i64InRange (a + b) →
      execute_loop handlers gl (fuel + 1) st =
        .err (.NumericOverflow Opcode.ADD) { st with number_stack := rest }) ∧
    (∀ (handlers : List Handler) (gl : GasLimit) (fuel : Nat) (st : StackMachineState)
        (a b : Int) (rest : List Int),
      st.opcodes.get? st.pc = some Opcode.SUB → st.number_stack = b :: a :: rest →
      ¬ i64InRange (b - a) →
      execute_loop handlers gl (fuel + 1) st =
        .err (.NumericOverflow Opcode.SUB) { st with number_stack := rest }) ∧
    (∀ (handlers : List Handler) (gl : GasLimit) (fuel : Nat) (st : StackMachineState)
        (a b : Int) (rest : List Int),
      st.opcodes.get? st.pc = some Opcode.MUL → st.number_stack = b :: a :: rest →
      ¬ i64InRange (a * b) →
      execute_loop handlers gl (fuel + 1) st =
        .err (.NumericOverflow Opcode.MUL) { st with number_stack := rest }) ∧
    (∀ (handlers : List Handler) (fuel : Nat) (st : StackMachineState)
        (c m : Int) (ls : List (Int × Int)),
      st.opcodes.get? st.pc = some Opcode.INCLP → st.loop_stack = (c, m) :: ls →
      execute_loop handlers .Unlimited (fuel + 1) st =
        execute_loop handlers .Unlimited fuel
          { st with
            loop_stack := (wrap64 (c + 1), m) :: ls,
            pc := st.pc + 1, gas_used := st.gas_used + 1 }) ∧
    (∀ (handlers : List Handler) (fuel : Nat) (st : StackMachineState)
        (inc : Int) (nrest : List Int) (c m : Int) (ls : List (Int × Int)),
      st.opcodes.get? st.pc = some Opcode.ADDLP → st.number_stack = inc :: nrest →
      st.loop_stack = (c, m) :: ls →
      execute_loop handlers .Unlimited (fuel + 1) st =
        execute_loop handlers .Unlimited fuel
          { st with
            number_stack := nrest, loop_stack := (wrap64 (c + inc), m) :: ls,
            pc := st.pc + 1, gas_used := st.gas_used + 1 }) := by
  refine ⟨?_, ?_, ?_, ?_, ?_⟩
  · intro handlers gl fuel st a b rest hfetch hstack hov
    refine execute_loop_failed handlers gl fuel st Opcode.ADD _ _ hfetch ?_
    simp only [executeStep, execute_binary_op, hstack, checked_add, if_neg hov]
  · intro handlers gl fuel st a b rest hfetch hstack hov
    refine execute_loop_failed handlers gl fuel st Opcode.SUB _ _ hfetch ?_
    simp only [executeStep, execute_binary_op, hstack, checked_sub, if_neg hov]
  · intro handlers gl fuel st a b rest hfetch hstack hov
    refine execute_loop_failed handlers gl fuel st Opcode.MUL _ _ hfetch ?_
    simp only [executeStep, execute_binary_op, hstack, checked_mul, if_neg hov]
  · intro handlers fuel st c m ls hfetch hloop
    have hstep : executeStep handlers st Opcode.INCLP =
        .continue_ { st with loop_stack := (wrap64 (c + 1), m) :: ls } false := by
      simp only [executeStep, hloop]
    exact execute_loop_continue_unlimited handlers fuel st _ _ _ hfetch hstep
  · intro handlers fuel st inc nrest c m ls hfetch hstack hloop
    have hstep : executeStep handlers st Opcode.ADDLP =
        .continue_
          { st with number_stack := nrest, loop_stack := (wrap64 (c + inc), m) :: ls }
          false := by
      simp only [executeStep, hstack, hloop]
    exact execute_loop_continue_unlimited handlers fuel st _ _ _ hfetch hstep

/-- C3 witness: a concrete overflowing `ADD` errs, and a concrete `INCLP` at
`i64::MAX` continues with the wrapped counter. -/
theorem C3_witness :
    execute_loop [] GasLimit.Unlimited 1
      { initState with number_stack := [2 ^ 62, 2 ^ 62], opcodes := [Opcode.ADD] } =
      RunResult.err (StackMachineError.NumericOverflow Opcode.ADD)
        { initState with number_stack := [], opcodes := [Opcode.ADD] } ∧
    execute_loop [] GasLimit.Unlimited 1
      { initState with loop_stack := [(i64Max, 0)], opcodes := [Opcode.INCLP] } =
      execute_loop [] GasLimit.Unlimited 0
        { initState with
          loop_stack := [(wrap64 (i64Max + 1), 0)], opcodes := [Opcode.INCLP],
          pc := 1, gas_used := 1 } := by
  refine ⟨?_, ?_⟩
  · exact C3_arith_checked_but_loop_counters_wrap.1 [] GasLimit.Unlimited 0
      { initState with number_stack := [2 ^ 62, 2 ^ 62], opcodes := [Opcode.ADD] }
      (2 ^ 62) (2 ^ 62) [] rfl rfl (by decide)
  · exact C3_arith_checked_but_loop_counters_wrap.2.2.2.1 [] 0
      { initState with loop_stack := [(i64Max, 0)], opcodes := [Opcode.INCLP] }
      i64Max 0 [] rfl rfl

/-- C5 counterexample: `Div` with dividend `i64::MIN` and divisor `-1` fails
with the division-by-zero error although the divisor is not zero —
`checked_div` also returns `None` on this sole overflowing division,
contradicting "succeeds for every other pair of operands". -/
theorem C5_counterexample :
    execute [] 10 { initState with number_stack := [-1, i64Min], opcodes := [Opcode.DIV] }
        0 GasLimit.Unlimited =
      RunResult.err (StackMachineError.DivisionByZero Opcode.DIV)
        { initState with number_stack := [], opcodes := [Opcode.DIV] } ∧
    (-1 : Int) ≠ 0 := by
  refine ⟨?_, ?_⟩ <;> decide

/-- C5 amended: `Div` pops the divisor (top), then the dividend, and fails
with the division-by-zero error naming `DIV` exactly when the divisor is zero
or the division is the overflowing `i64::MIN / -1`; for every other pair it
pushes the quotient truncated toward zero. -/
theorem C5_division_semantics
    (handlers : List Handler) (gl : GasLimit) (fuel : Nat) (st : StackMachineState)
    (divisor dividend : Int) (rest : List Int)
    (hfetch : st.opcodes.get? st.pc = some Opcode.DIV)
    (hstack : st.number_stack = divisor :: dividend :: rest) :
    (divisor = 0 ∨ (dividend = i64Min ∧ divisor = -1) →
      execute_loop handlers gl (fuel + 1) st =
        .err (.DivisionByZero Opcode.DIV) { st with number_stack := rest }) ∧
    (¬ (divisor = 0 ∨ (dividend = i64Min ∧ divisor = -1)) →
      executeStep handlers st Opcode.DIV =
        .continue_ { st with number_stack := Int.tdiv dividend divisor :: rest } false) := by
  constructor
  · intro hcond
    refine execute_loop_failed handlers gl fuel st Opcode.DIV _ _ hfetch ?_
    simp only [executeStep, execute_division, hstack, checked_div, if_pos hcond]
  · intro hcond
    simp only [executeStep, execute_division, hstack, checked_div, if_neg hcond]

/-- C5 witness: `5 / 0` errs with division-by-zero; `7 / 3` pushes the
truncated quotient `2`. -/
theorem C5_witness :
    execute_loop [] GasLimit.Unlimited 1
      { initState with number_stack := [0, 5], opcodes := [Opcode.DIV] } =
      RunResult.err (StackMachineError.DivisionByZero Opcode.DIV)
        { initState with number_stack := [], opcodes := [Opcode.DIV] } ∧
    executeStep [] { initState with number_stack := [3, 7], opcodes := [Opcode.DIV] }
        Opcode.DIV =
      .continue_ { initState with number_stack := [2], opcodes := [Opcode.DIV] } false := by
  constructor
  · exact (C5_division_semantics [] GasLimit.Unlimited 0
      { initState with number_stack := [0, 5], opcodes := [Opcode.DIV] }
      0 5 [] rfl rfl).1 (Or.inl rfl)
  · exact (C5_division_semantics [] GasLimit.Unlimited 0
      { initState with number_stack := [3, 7], opcodes := [Opcode.DIV] }
      3 7 [] rfl rfl).2 (by decide)

/-- C6: `Sub` on a stack holding `a` below `b` (b on top) pops both and pushes
`b - a`; and within the non-overflowing range, `Add` on `[a, b]` and on
`[b, a]` produce identical results (`Add` is commutative). -/
theorem C6_sub_order_and_add_commutative :
    (∀ (handlers : List Handler) (st : StackMachineState) (a b : Int) (rest : List Int),
      i64InRange (b - a) →
      executeStep handlers { st with number_stack := b :: a :: rest } Opcode.SUB =
        .continue_ { st with number_stack := (b - a) :: rest } false) ∧
    (∀ (handlers : List Handler) (st : StackMachineState) (a b : Int) (rest : List Int),
      i64InRange (a + b) →
      executeStep handlers { st with number_stack := b :: a :: rest } Opcode.ADD =
        .continue_ { st with number_stack := (a + b) :: rest } false ∧
      executeStep handlers { st with number_stack := a :: b :: rest } Opcode.ADD =
        .continue_ { st with number_stack := (a + b) :: rest } false ∧
      executeStep handlers { st with number_stack := b :: a :: rest } Opcode.ADD =
        executeStep handlers { st with number_stack := a :: b :: rest } Opcode.ADD) := by
  constructor
  · intro handlers st a b rest hin
    simp only [executeStep, execute_binary_op, checked_sub, if_pos hin]
  · intro handlers st a b rest hin
    have hin2 : i64InRange (b + a) := by
      rw [Int.add_comm]
      exact hin
    refine ⟨?_, ?_, ?_⟩
    · simp only [executeStep, execute_binary_op, checked_add, if_pos hin]
    · simp only [executeStep, execute_binary_op, checked_add, Int.add_comm, if_pos hin]
    · simp only [executeStep, execute_binary_op, checked_add, Int.add_comm, if_pos hin]

/-- C6 witness at `a = 2`, `b = 5`. -/
theorem C6_witness :
    executeStep [] { initState with number_stack := [5, 2] } Opcode.SUB =
      .continue_ { initState with number_stack := [3] } false ∧
    executeStep [] { initState with number_stack := [5, 2] } Opcode.ADD =
      .continue_ { initState with number_stack := [7] } false ∧
    executeStep [] { initState with number_stack := [5, 2] } Opcode.ADD =
      executeStep [] { initState with number_stack := [2, 5] } Opcode.ADD := by
  have h1 := C6_sub_order_and_add_commutative.1 [] initState 2 5 [] (by decide)
  have h2 := C6_sub_order_and_add_commutative.2 [] initState 2 5 [] (by decide)
  exact ⟨h1, h2.1, h2.2.2⟩

/-- C4 counterexample: at pc `2^63 - 1` (a representable program counter) and
popped offset `2^63 - 1` (a representable `i64`), the exact sum `2^64 - 2`
fits the 64-bit address type, so the spec's wide-intermediate computation
returns it — but the source computes in `i64`, where this addition overflows
(the sum is not `i64`-representable), and returns a conversion error instead:
the intermediate is not wide enough for the addition to be overflow-free. -/
theorem C4_counterexample :
    jump_relative_pc (2 ^ 63 - 1) (2 ^ 63 - 1) =
      Except.error StackMachineError.TryFromIntError ∧
    jump_relative_pc_spec (2 ^ 63 - 1) (2 ^ 63 - 1) = Except.ok (2 ^ 64 - 2) ∧
    jump_relative_pc (2 ^ 63 - 1) (2 ^ 63 - 1) ≠
      jump_relative_pc_spec (2 ^ 63 - 1) (2 ^ 63 - 1) ∧
    ¬ i64InRange (((2 ^ 63 - 1 : Nat) : Int) + (2 ^ 63 - 1 : Int)) := by
  have hA : jump_relative_pc (2 ^ 63 - 1) (2 ^ 63 - 1) =
      Except.error StackMachineError.TryFromIntError := rfl
  have hB : jump_relative_pc_spec (2 ^ 63 - 1) (2 ^ 63 - 1) = Except.ok (2 ^ 64 - 2) := rfl
  refine ⟨hA, hB, ?_, by decide⟩
  rw [hA, hB]
  intro hc
  exact Except.noConfusion hc

/-- C4 amended: the relative-jump target is computed in `i64` — the same
64-bit width as the address type, with two's-complement wrap-around on
overflow — not in a wider intermediate; nevertheless, for every representable
offset the observable behaviour is exact arithmetic range-checked to the
`i64`-representable address range: when `pc + offset` (exact) lies in
`[0, 2^63)` the jump target is exactly `pc + offset`, and in every other case
— negative sum, sum past `2^63`, or a pc outside `i64` — `execute` returns the
conversion error; a wrapped result is never silently used as the new pc. -/
theorem C4_jump_relative_range_checked (pc : Nat) (offset : Int)
    (hoff : i64InRange offset) :
    (jump_relative_pc pc offset =
      if (pc : Int) ≤ i64Max ∧ 0 ≤ (pc : Int) + offset ∧ (pc : Int) + offset ≤ i64Max
      then Except.ok ((pc : Int) + offset).toNat
      else Except.error StackMachineError.TryFromIntError) ∧
    (∀ (handlers : List Handler) (gl : GasLimit) (fuel : Nat) (st : StackMachineState)
        (rest : List Int) (e : StackMachineError),
      st.opcodes.get? st.pc = some Opcode.JR → st.number_stack = offset :: rest →
      jump_relative_pc st.pc offset = Except.error e →
      execute_loop handlers gl (fuel + 1) st = .err e { st with number_stack := rest }) := by
  obtain ⟨ho1, ho2⟩ := hoff
  constructor
  · unfold jump_relative_pc i64FromUsize usizeFromI64
    by_cases hpc : (pc : Int) ≤ i64Max
    · rw [if_pos hpc]
      dsimp only
      by_cases h1 : 0 ≤ (pc : Int) + offset
      · by_cases h2 : (pc : Int) + offset ≤ i64Max
        · have hw : wrap64 ((pc : Int) + offset) = (pc : Int) + offset :=
            wrap64_eq_self (by unfold i64Min at ho1 ⊢; omega) h2
          rw [hw, if_pos h1, if_pos ⟨hpc, h1, h2⟩]
        · have hw : wrap64 ((pc : Int) + offset) = (pc : Int) + offset - 2 ^ 64 :=
            wrap64_eq_sub (by unfold i64Max at h2 ⊢; omega)
              (by unfold i64Max at hpc ho2; omega)
          rw [hw, if_neg (by unfold i64Max at hpc ho2; omega),
            if_neg (by intro hc; exact h2 hc.2.2)]
      · have hw : wrap64 ((pc : Int) + offset) = (pc : Int) + offset :=
          wrap64_eq_self (by unfold i64Min at ho1 ⊢; omega)
            (by unfold i64Max at ho2 ⊢; omega)
        rw [hw, if_neg h1, if_neg (by intro hc; exact h1 hc.2.1)]
    · rw [if_neg hpc]
      dsimp only
      rw [if_neg (by intro hc; exact hpc hc.1)]
  · intro handlers gl fuel st rest e hfetch hstack herr
    refine execute_loop_failed handlers gl fuel st Opcode.JR _ _ hfetch ?_
    simp only [executeStep, execute_jump_relative, hstack]
    dsimp only [jump_apply]
    rw [herr]

/-- C4 witness: `pc = 5, offset = -3` jumps to 2; `pc = 0, offset = -6` makes
`execute` return the conversion error. -/
theorem C4_witness :
    jump_relative_pc 5 (-3) = Except.ok 2 ∧
    execute_loop [] GasLimit.Unlimited 1
      { initState with number_stack := [-6], opcodes := [Opcode.JR] } =
      RunResult.err StackMachineError.TryFromIntError
        { initState with number_stack := [], opcodes := [Opcode.JR] } := by
  have h1 := (C4_jump_relative_range_checked 5 (-3) (by decide)).1
  have h2 := (C4_jump_relative_range_checked 0 (-6) (by decide)).2 [] GasLimit.Unlimited 0
    { initState with number_stack := [-6], opcodes := [Opcode.JR] } []
    StackMachineError.TryFromIntError rfl rfl rfl
  exact ⟨h1.trans rfl, h2⟩

/-- The `MOVETOCELLS` write-back loop with enough operands succeeds, consumes
exactly the `vs` prefix of the stack, keeps the memory length, writes `vs`
ascending from `i` (topmost value at the lowest address) and leaves addresses
below `i` unchanged. -/
theorem move_to_cells_loop_spec :
    ∀ (vs rest cells : List Int) (i : Nat), i + vs.length ≤ cells.length →
      ∃ cells',
        move_to_cells_loop i vs.length (vs ++ rest) cells = (none, rest, cells') ∧
        cells'.length = cells.length ∧
        (∀ j, j < vs.length → cells'.getD (i + j) 0 = vs.getD j 0) ∧
        (∀ k, k < i → cells'.getD k 0 = cells.getD k 0) := by
  intro vs
  induction vs with
  | nil =>
    intro rest cells i _
    exact ⟨cells, rfl, rfl, fun j hj => absurd hj (by simp), fun k _ => rfl⟩
  | cons v vs ih =>
    intro rest cells i hbound
    have hbound' : (i + 1) + vs.length ≤ (cells.set i v).length := by
      simp only [List.length_set]
      simp only [List.length_cons] at hbound
      omega
    obtain ⟨cells', h1, hlen, hj, hk⟩ := ih rest (cells.set i v) (i + 1) hbound'
    have hi : i < cells.length := by
      simp only [List.length_cons] at hbound
      omega
    refine ⟨cells', ?_, ?_, ?_, ?_⟩
    · simpa [move_to_cells_loop] using h1
    · rw [hlen, List.length_set]
    · intro j hj'
      match j with
      | 0 =>
        have := hk i (by omega)
        simp only [Nat.add_zero, List.getD_cons_zero]
        rw [this]
        simp [List.getD_eq_getElem?_getD, List.getElem?_set_self, hi]
      | Nat.succ j =>
        have := hj j (by simpa using hj')
        rw [show i + (j + 1) = (i + 1) + j from by omega]
        simpa using this
    · intro k hkk
      rw [hk k (by omega)]
      simp [List.getD_eq_getElem?_getD, List.getElem?_set_ne (by omega : i ≠ k)]

/-- The `MOVEFROMCELLS` push loop pushes the cells of the range in
address-descending order, so the resulting stack starts with the range in
address-ascending order. -/
theorem move_from_cells_loop_eq_map :
    ∀ (n : Nat) (cells : List Int) (address : Nat) (stack : List Int),
      move_from_cells_loop cells address n stack =
        (List.range n).map (fun j => cells.getD (address + j) 0) ++ stack := by
  intro n
  induction n with
  | zero => intro cells address stack; simp [move_from_cells_loop]
  | succ n ih =>
    intro cells address stack
    rw [move_from_cells_loop, ih, List.range_succ, List.map_append]
    simp

/-- A function agreeing with `vs` pointwise maps `range vs.length` to `vs`. -/
theorem map_range_eq_of_getD (vs : List Int) :
    ∀ f : Nat → Int, (∀ j, j < vs.length → f j = vs.getD j 0) →
      (List.range vs.length).map f = vs := by
  induction vs with
  | nil => intro f _; simp
  | cons v vs ih =>
    intro f h
    rw [List.length_cons, List.range_succ_eq_map, List.map_cons, List.map_map]
    have h0 : f 0 = v := by simpa using h 0 (by simp)
    rw [h0]
    congr 1
    refine ih (fun j => f (j + 1)) (fun j hj => ?_)
    have := h (j + 1) (by simpa using Nat.succ_lt_succ hj)
    simpa using this

/-- C7: `Store-cells` followed by `Load-cells` with the same address and count
is a round trip: with `count ≥ 1`, the range in bounds, and `count` values on
the operand stack below the pushed address and count, `MOVETOCELLS` writes the
topmost value to the lowest address of the range and consumes exactly those
values, and a subsequent `MOVEFROMCELLS` with the same address and count
pushes the stored cells back so the operand stack regains exactly its
pre-store contents and order. -/
theorem C7_store_load_round_trip (handlers : List Handler) (st : StackMachineState)
    (address n : Nat) (vs rest : List Int)
    (hlen : vs.length = n) (hn : 1 ≤ n) (hbound : address + n ≤ st.cells.length) :
    ∃ cells',
      executeStep handlers
          { st with number_stack := (n : Int) :: (address : Int) :: (vs ++ rest) }
          Opcode.MOVETOCELLS =
        .continue_ { st with number_stack := rest, cells := cells' } false ∧
      cells'.length = st.cells.length ∧
      cells'.getD address 0 = vs.getD 0 0 ∧
      executeStep handlers
          { st with number_stack := (n : Int) :: (address : Int) :: rest, cells := cells' }
          Opcode.MOVEFROMCELLS =
        .continue_ { st with number_stack := vs ++ rest, cells := cells' } false := by
  subst hlen
  obtain ⟨cells', h1, hlen', hj, hk⟩ :=
    move_to_cells_loop_spec vs rest st.cells address hbound
  have hconvn : usizeFromI64 ((vs.length : Nat) : Int) = Except.ok vs.length := by
    simp [usizeFromI64]
  have hconva : usizeFromI64 ((address : Nat) : Int) = Except.ok address := by
    simp [usizeFromI64]
  have hnotbad : ¬ (vs.length < 1 ∨ st.cells.length < address + vs.length) := by
    intro hc
    rcases hc with hc | hc <;> omega
  have hnotbad' : ¬ (vs.length < 1 ∨ cells'.length < address + vs.length) := by
    intro hc
    rw [hlen'] at hc
    exact hnotbad hc
  refine ⟨cells', ?_, hlen', ?_, ?_⟩
  · simp only [executeStep, hconvn, hconva]
    rw [if_neg hnotbad, h1]
  · simpa using hj 0 (by omega)
  · simp only [executeStep, hconvn, hconva]
    rw [if_neg hnotbad']
    rw [move_from_cells_loop_eq_map]
    rw [map_range_eq_of_getD vs (fun j => cells'.getD (address + j) 0) (fun j hj' => hj j hj')]

/-- C7 witness mirroring the crate's own cell test: store `[3, 2]` at address
0 of a 2-cell memory, then load it back. -/
theorem C7_witness :
    ∃ cells',
      executeStep [] { initState with cells := [0, 0], number_stack := [2, 0, 3, 2, 1, 0] }
          Opcode.MOVETOCELLS =
        .continue_ { initState with cells := cells', number_stack := [1, 0] } false ∧
      cells'.length = 2 ∧
      cells'.getD 0 0 = 3 ∧
      executeStep [] { initState with cells := cells', number_stack := [2, 0, 1, 0] }
          Opcode.MOVEFROMCELLS =
        .continue_ { initState with cells := cells', number_stack := [3, 2, 1, 0] } false :=
  C7_store_load_round_trip [] { initState with cells := [0, 0] } 0 2 [3, 2] [1, 0]
    rfl (by omega) (by decide)

/-- Handlers that all report `NotHandled` pass the dispatch on to the rest of
the chain, threading their state mutations. -/
theorem trap_dispatch_append :
    ∀ (hs1 hs2 : List Handler) (trap_id : Int) (st stMid : StackMachineState),
      threadNotHandled hs1 trap_id st = some stMid →
      trap_dispatch (hs1 ++ hs2) trap_id st = trap_dispatch hs2 trap_id stMid := by
  intro hs1
  induction hs1 with
  | nil =>
    intro hs2 trap_id st stMid hth
    injection hth with hth
    subst hth
    rfl
  | cons h hs ih =>
    intro hs2 trap_id st stMid hth
    unfold threadNotHandled at hth
    simp only [List.cons_append, trap_dispatch]
    cases hh : h trap_id st with
    | mk r st' =>
      rw [hh] at hth
      cases r with
      | error e => simp at hth
      | ok tr =>
        cases tr with
        | Handled => simp at hth
        | NotHandled =>
          simp only at hth
          exact ih hs2 trap_id st' stMid hth

/-- A chain exhausted with every handler reporting `NotHandled` yields the
unhandled-trap error carrying the id, with the threaded state. -/
theorem trap_dispatch_exhausted (hs : List Handler) (trap_id : Int)
    (st stFin : StackMachineState)
    (hth : threadNotHandled hs trap_id st = some stFin) :
    trap_dispatch hs trap_id st = .failed (.UnhandledTrap trap_id) stFin := by
  have := trap_dispatch_append hs [] trap_id st stFin hth
  simpa [trap_dispatch] using this

/-- C8: `TRAP` pops one identifier from the operand stack and offers it to the
registered handlers in registration order: if the handlers before some handler
`h` all report `NotHandled` and `h` reports `Handled`, `execute` returns `Ok`
immediately with `h`'s resulting state, dispatching no further instruction;
if every registered handler reports `NotHandled`, `execute` returns the
unhandled-trap error carrying exactly the popped identifier. -/
theorem C8_trap_dispatch_order (handlers : List Handler) (gl : GasLimit) (fuel : Nat)
    (st : StackMachineState) (trap_id : Int) (rest : List Int)
    (hfetch : st.opcodes.get? st.pc = some Opcode.TRAP)
    (hstack : st.number_stack = trap_id :: rest) :
    (∀ (hs1 hs2 : List Handler) (h : Handler) (stMid st' : StackMachineState),
      handlers = hs1 ++ h :: hs2 →
      threadNotHandled hs1 trap_id { st with number_stack := rest } = some stMid →
      h trap_id stMid = (Except.ok TrapHandled.Handled, st') →
      execute_loop handlers gl (fuel + 1) st = .ok st') ∧
    (∀ stFin : StackMachineState,
      threadNotHandled handlers trap_id { st with number_stack := rest } = some stFin →
      execute_loop handlers gl (fuel + 1) st = .err (.UnhandledTrap trap_id) stFin) := by
  constructor
  · intro hs1 hs2 h stMid st' hsplit hth hh
    subst hsplit
    refine execute_loop_finished _ gl fuel st Opcode.TRAP st' hfetch ?_
    simp only [executeStep, hstack]
    rw [trap_dispatch_append hs1 (h :: hs2) trap_id _ stMid hth]
    simp only [trap_dispatch]
    rw [hh]
  · intro stFin hth
    refine execute_loop_failed handlers gl fuel st Opcode.TRAP _ _ hfetch ?_
    simp only [executeStep, hstack]
    exact trap_dispatch_exhausted handlers trap_id _ stFin hth

/-- C8 witness: with a non-matching handler for id 7 registered before a
handler for id 100 that pushes 200, trapping on 100 ends the run `Ok` with the
handler's mutation applied; with only the id-7 handler registered, the same
trap fails with `UnhandledTrap 100`. -/
theorem C8_witness :
    execute_loop
      [TrapHandler.handle_trap 7 (fun _ s => (Except.ok TrapHandled.Handled, s)),
        TrapHandler.handle_trap 100
          (fun _ s => (Except.ok TrapHandled.Handled,
            { s with number_stack := 200 :: s.number_stack }))]
      GasLimit.Unlimited 1
      { initState with number_stack := [100, 50], opcodes := [Opcode.TRAP] } =
      RunResult.ok { initState with number_stack := [200, 50], opcodes := [Opcode.TRAP] } ∧
    execute_loop [TrapHandler.handle_trap 7 (fun _ s => (Except.ok TrapHandled.Handled, s))]
      GasLimit.Unlimited 1
      { initState with number_stack := [100, 50], opcodes := [Opcode.TRAP] } =
      RunResult.err (StackMachineError.UnhandledTrap 100)
        { initState with number_stack := [50], opcodes := [Opcode.TRAP] } := by
  constructor
  · exact (C8_trap_dispatch_order
      [TrapHandler.handle_trap 7 (fun _ s => (Except.ok TrapHandled.Handled, s)),
        TrapHandler.handle_trap 100
          (fun _ s => (Except.ok TrapHandled.Handled,
            { s with number_stack := 200 :: s.number_stack }))]
      GasLimit.Unlimited 0
      { initState with number_stack := [100, 50], opcodes := [Opcode.TRAP] }
      100 [50] rfl rfl).1
      [TrapHandler.handle_trap 7 (fun _ s => (Except.ok TrapHandled.Handled, s))] []
      (TrapHandler.handle_trap 100
        (fun _ s => (Except.ok TrapHandled.Handled,
          { s with number_stack := 200 :: s.number_stack })))
      { initState with number_stack := [50], opcodes := [Opcode.TRAP] }
      { initState with number_stack := [200, 50], opcodes := [Opcode.TRAP] }
      rfl rfl rfl
  · exact (C8_trap_dispatch_order
      [TrapHandler.handle_trap 7 (fun _ s => (Except.ok TrapHandled.Handled, s))]
      GasLimit.Unlimited 0
      { initState with number_stack := [100, 50], opcodes := [Opcode.TRAP] }
      100 [50] rfl rfl).2
      { initState with number_stack := [50], opcodes := [Opcode.TRAP] } rfl

end StackProcessor
